import Mathlib

/-!
Verification development for the `check-canyon` differential conformance
checker (`op-chain-ops/cmd/check-canyon/main.go`).

The Go code is embedded shallowly:

* `uint64` values become `Nat`; the one place where unsigned wraparound is
  observable (`ctx.Number - 1`) is modelled explicitly with `u64sub`.
* `*big.Int` fee arithmetic becomes `Int`.  Go's `big.Int.Div` implements
  Euclidean division, which is `Int.ediv`; it panics on a zero divisor, so
  `CalcBaseFee` returns an `Option Int` (`none` = runtime panic).
* Byte strings become `List Nat` (each element a byte value).
* The go-ethereum Merkle-Patricia trie used by `HashList` is modelled by its
  key/value contents (an association list in insertion order, at most one
  entry per key).  The external keccak digest is abstracted: two tries have
  the same digest exactly when they have the same contents.  `trie.Update`
  with an empty value deletes the key, as in go-ethereum.
* The receipt encoding reproduces op-geth's `types.Receipts.EncodeIndex`
  together with the RLP serialization it uses.
-/

/-! ## Bytes and RLP integer encodings -/

abbrev Bytes := List Nat

/-- Skeleton of `natBytes` with explicit fuel, so that the definition is
structurally recursive and evaluates inside the kernel. -/
def natBytesAux : Nat → Nat → Bytes
  | 0, _ => []
  | fuel + 1, n => if n = 0 then [] else natBytesAux fuel (n / 256) ++ [n % 256]

/-- Minimal big-endian byte representation of a natural number
(`0` maps to the empty byte string). -/
def natBytes (n : Nat) : Bytes := natBytesAux n n

theorem natBytesAux_fuel (fuel₁ : Nat) : ∀ fuel₂ n, n ≤ fuel₁ → n ≤ fuel₂ →
    natBytesAux fuel₁ n = natBytesAux fuel₂ n := by
  induction fuel₁ with
  | zero =>
    intro fuel₂ n h1 _
    interval_cases n
    cases fuel₂ <;> rfl
  | succ fuel ih =>
    intro fuel₂ n h1 h2
    by_cases hn : n = 0
    · subst hn; cases fuel₂ <;> rfl
    · obtain ⟨f₂, rfl⟩ : ∃ f₂, fuel₂ = f₂ + 1 := ⟨fuel₂ - 1, by omega⟩
      rw [natBytesAux, natBytesAux, if_neg hn, if_neg hn]
      have hlt : n / 256 < n := Nat.div_lt_self (Nat.pos_of_ne_zero hn) (by decide)
      rw [ih f₂ (n / 256) (by omega) (by omega)]

/-- The recurrence `natBytes` satisfies: strip the low byte, recurse on the
rest. -/
theorem natBytes_eq (n : Nat) :
    natBytes n = if n = 0 then [] else natBytes (n / 256) ++ [n % 256] := by
  by_cases hn : n = 0
  · subst hn; rfl
  · obtain ⟨m, rfl⟩ : ∃ m, n = m + 1 := ⟨n - 1, by omega⟩
    rw [if_neg hn]
    show natBytesAux (m + 1) (m + 1) = _
    rw [natBytesAux, if_neg hn]
    congr 1
    have hlt : (m + 1) / 256 < m + 1 := Nat.div_lt_self (by omega) (by decide)
    exact natBytesAux_fuel m ((m + 1) / 256) ((m + 1) / 256) (by omega) (by omega)

/-- go-ethereum `rlp.AppendUint64` (the trie key used by `HashList` for
index `i`): `0` encodes to the single byte `0x80`, `1 ≤ i ≤ 127` to the
single byte `i`, and larger values to a length byte `0x80 + len` followed by
the minimal big-endian bytes of `i`. -/
def rlpAppendUint64 (i : Nat) : Bytes :=
  if i = 0 then [128]
  else if i < 128 then [i]
  else (128 + (natBytes i).length) :: natBytes i

/-- The key the specification text describes: the "canonical minimal
big-endian encoding of the integer index i, with index 0 encoding to the
empty key". -/
def specIndexKey (i : Nat) : Bytes := natBytes i

/-! ## Trie model (`HashList`) -/

/-- Contents of the commitment trie: at most one entry per key, kept in
insertion order.  The external keccak-based digest is abstracted as the
contents themselves (equal digest ↔ equal contents). -/
abbrev Trie := List (Bytes × Bytes)

/-- go-ethereum `Trie.Update`: a non-empty value replaces any existing entry
for the key; an empty value deletes the key. -/
def trieUpdate (t : Trie) (k v : Bytes) : Trie :=
  if v = [] then t.filter (fun p => p.1 ≠ k)
  else t.filter (fun p => p.1 ≠ k) ++ [(k, v)]

/-- go-ethereum `Trie.Get`: the stored value, or the empty byte string when
the key is absent. -/
def trieGet (t : Trie) (k : Bytes) : Bytes :=
  ((t.find? (fun p => p.1 = k)).map Prod.snd).getD []

def hashListAux (i : Nat) (t : Trie) : List Bytes → Trie
  | [] => t
  | v :: rest => hashListAux (i + 1) (trieUpdate t (rlpAppendUint64 i) v) rest

/-- Model of `HashList` from `check-canyon/main.go`: build a fresh trie, insert entry
`i` under key `rlp.AppendUint64(i)`, and return the root (here: the trie
contents, with the digest abstracted). -/
def HashList (list : List Bytes) : Trie := hashListAux 0 [] list

/-- The empty commitment: the root of a freshly created trie with no
inserts.  In the concrete scheme this is the constant
keccak256(rlp("")) = 0x56e8…b421; in the contents model it is the empty
association list. -/
def emptyTrieRoot : Trie := []

/-! ## Receipts and their encoding (op-geth `types.Receipts.EncodeIndex`) -/

structure LogEntry where
  address : Bytes
  topics : List Bytes
  data : Bytes
deriving DecidableEq

/-- op-geth `types.Receipt`, restricted to the consensus fields that enter
`EncodeIndex`.  `type` is the transaction type byte (`0x7E = 126` is
`DepositTxType`); `depositNonce` and `depositReceiptVersion` model the
`*uint64` pointer fields (`none` = nil pointer). -/
structure Receipt where
  type : Nat
  postState : Bytes
  status : Nat
  cumulativeGasUsed : Nat
  bloom : Bytes
  logs : List LogEntry
  depositNonce : Option Nat
  depositReceiptVersion : Option Nat
deriving DecidableEq

/-- op-geth `types.DepositTxType` (0x7E). -/
def DepositTxType : Nat := 126

/-! RLP serialization, as used by `rlp.Encode` on the receipt structs. -/

inductive RlpItem where
  | str (b : Bytes)
  | items (l : List RlpItem)

/-- RLP length header: payloads shorter than 56 bytes get a single byte
`base + len`; longer payloads get `base + 55 + len(lenBytes)` followed by
the big-endian length. -/
def rlpHeader (base : Nat) (payload : Bytes) : Bytes :=
  if payload.length < 56 then (base + payload.length) :: payload
  else (base + 55 + (natBytes payload.length).length) :: (natBytes payload.length ++ payload)

mutual
def rlpEncode : RlpItem → Bytes
  | .str b => if b.length = 1 ∧ b.headD 0 < 128 then b else rlpHeader 128 b
  | .items l => rlpHeader 192 (rlpEncodeList l)
def rlpEncodeList : List RlpItem → Bytes
  | [] => []
  | x :: rest => rlpEncode x ++ rlpEncodeList rest
end

/-- RLP item for a `uint64` value: the minimal big-endian byte string
(empty for zero). -/
def rlpNatItem (n : Nat) : RlpItem := .str (natBytes n)

/-- Consensus RLP of a log: `[address, topics, data]`. -/
def logRlpItem (l : LogEntry) : RlpItem :=
  .items [.str l.address, .items (l.topics.map RlpItem.str), .str l.data]

/-- Model of `Receipt.statusEncoding`: the post-state bytes if present, otherwise an
empty string for a failed receipt (status 0) and `0x01` for a successful
one. -/
def statusEncoding (r : Receipt) : Bytes :=
  if r.postState = [] then (if r.status = 0 then [] else [1]) else r.postState

/-- op-geth `receiptRLP`: `[statusEncoding, cumulativeGasUsed, bloom, logs]`. -/
def receiptRlpData (r : Receipt) : RlpItem :=
  .items [.str (statusEncoding r), rlpNatItem r.cumulativeGasUsed,
          .str r.bloom, .items (r.logs.map logRlpItem)]

/-- op-geth `depositReceiptRlp` with the version marker present: the four
consensus fields followed by the deposit nonce (a nil pointer encodes as
zero) and the version marker `v`. -/
def depositReceiptRlpData (r : Receipt) (v : Nat) : RlpItem :=
  .items [.str (statusEncoding r), rlpNatItem r.cumulativeGasUsed,
          .str r.bloom, .items (r.logs.map logRlpItem),
          rlpNatItem (r.depositNonce.getD 0), rlpNatItem v]

/-- op-geth `types.Receipts.EncodeIndex` for one receipt: legacy receipts
are the bare RLP list; typed receipts prepend the type byte; a deposit
receipt whose version pointer is non-nil additionally carries the deposit
nonce and version fields; unknown types yield just the type byte. -/
def encodeIndex (r : Receipt) : Bytes :=
  if r.type = 0 then rlpEncode (receiptRlpData r)
  else r.type ::
    (if r.type = 1 ∨ r.type = 2 ∨ r.type = 3 then rlpEncode (receiptRlpData r)
     else if r.type = DepositTxType then
       match r.depositReceiptVersion with
       | some v => rlpEncode (depositReceiptRlpData r v)
       | none => rlpEncode (receiptRlpData r)
     else [])

/-- The in-place mutation performed by the first loop of `PreCanyonEncode`:
clear the version marker of every deposit receipt. -/
def clearDepositVersion (r : Receipt) : Receipt :=
  if r.type = DepositTxType then { r with depositReceiptVersion := none } else r

/-- The in-place mutation performed by the first loop of `PostCanyonEncode`:
set the version marker of every deposit receipt to 1. -/
def setDepositVersionOne (r : Receipt) : Receipt :=
  if r.type = DepositTxType then { r with depositReceiptVersion := some 1 } else r

/-- Model of `PreCanyonEncode`: mutates the caller's receipts (first component: the
receipts as the caller observes them after the call) and returns one
encoding per receipt, in order (second component). -/
def PreCanyonEncode (receipts : List Receipt) : List Receipt × List Bytes :=
  let rs := receipts.map clearDepositVersion
  (rs, rs.map encodeIndex)

/-- Model of `PostCanyonEncode`: as `PreCanyonEncode`, but the version marker of
every deposit receipt is set to 1 before encoding. -/
def PostCanyonEncode (receipts : List Receipt) : List Receipt × List Bytes :=
  let rs := receipts.map setDepositVersionOne
  (rs, rs.map encodeIndex)

/-! ## `CalcBaseFee` -/

/-- Model of `eth.BlockInfo`, restricted to the accessors the checker reads.
`receiptHash` lives in the abstract digest model of `HashList`. -/
structure BlockInfo where
  gasLimit : Nat
  gasUsed : Nat
  baseFee : Int
  hash : Bytes
  receiptHash : Trie
deriving DecidableEq

/-- Model of `CalcBaseFee` from `check-canyon/main.go`.  Returns `none` exactly where
the Go code panics with a division by zero: when `elasticity = 0`
(`uint64` division) or when the gas target is zero on the increase path
(`big.Int.Div`).  `big.Int.Div` is Euclidean division, i.e. `Int.ediv`. -/
def CalcBaseFee (parent : BlockInfo) (elasticity : Nat) (preCanyon : Bool) : Option Int :=
  if elasticity = 0 then none
  else
    let denomU : Nat := if preCanyon then 50 else 250
    let target : Nat := parent.gasLimit / elasticity
    if parent.gasUsed = target then
      some parent.baseFee
    else if target < parent.gasUsed then
      if target = 0 then none
      else
        let num := (((parent.gasUsed - target : Nat) : Int) * parent.baseFee).ediv
          (target : Int) |>.ediv (denomU : Int)
        some (parent.baseFee + max num 1)
    else
      let num := (((target - parent.gasUsed : Nat) : Int) * parent.baseFee).ediv
        (target : Int) |>.ediv (denomU : Int)
      some (max (parent.baseFee - num) 0)

/-- The fee computation exactly as the specification text words it:
`target = gasLimit / elasticity`; unchanged fee at the target;
`baseFee + max(1, baseFee*(gasUsed-target)/target/denom)` above it;
`max(0, baseFee - baseFee*(target-gasUsed)/target/denom)` below it, every
division truncating (`Int.tdiv`). -/
def specCalcBaseFee (parent : BlockInfo) (elasticity : Nat) (preCanyon : Bool) : Int :=
  let target : Nat := parent.gasLimit / elasticity
  if parent.gasUsed = target then parent.baseFee
  else
    let denom : Nat := if preCanyon then 50 else 250
    if target < parent.gasUsed then
      parent.baseFee +
        max 1 ((((parent.gasUsed - target : Nat) : Int) * parent.baseFee).tdiv
          (target : Int) |>.tdiv (denom : Int))
    else
      max 0 (parent.baseFee -
        ((((target - parent.gasUsed : Nat) : Int) * parent.baseFee).tdiv
          (target : Int) |>.tdiv (denom : Int)))

/-! ## Conformance checker (`ValidateReceipts`, `Validate1559Params`,
`CheckActivation`, `main`) -/

/-- Errors observable by the checker: a failure reported by the chain data
source (network / data unavailable), or a conformance mismatch the checker
constructs itself with `fmt.Errorf`. -/
inductive CheckError where
  | network (info : Nat)
  | mismatch
deriving DecidableEq

/-- The `ReceiptFetcher` interface: the two read operations of the chain
data source. -/
structure Client where
  infoByNumber : Nat → Except CheckError BlockInfo
  fetchReceipts : Bytes → Except CheckError (BlockInfo × List Receipt)

/-- The `Args` struct (the client is passed alongside). -/
structure Args where
  number : Nat
  elasticity : Nat

/-- Unsigned 64-bit subtraction with wraparound (both arguments reduced mod 2^64). -/
def u64sub (a b : Nat) : Nat := (a % 2 ^ 64 + 2 ^ 64 - b % 2 ^ 64) % 2 ^ 64

/-- The block number `Validate1559Params` requests as the parent of
`number`: `ctx.Number - 1` over `uint64`. -/
def parentNumber (number : Nat) : Nat := u64sub number 1

/-- Model of `ValidateReceipts`: fetch the block, fetch its receipts, rebuild the
receipts root under the requested variant and compare it with the header's
root.  Data-source errors are returned as-is. -/
def ValidateReceipts (c : Client) (ctx : Args) (preCanyon : Bool) : Option CheckError :=
  match c.infoByNumber ctx.number with
  | .error e => some e
  | .ok block =>
    match c.fetchReceipts block.hash with
    | .error e => some e
    | .ok (_, receipts) =>
      let want : Trie :=
        if preCanyon then HashList (PreCanyonEncode receipts).2
        else HashList (PostCanyonEncode receipts).2
      if block.receiptHash ≠ want then some .mismatch else none

/-- Result of running `Validate1559Params`: either a normal return
(`returns`), or a runtime panic escaping from `CalcBaseFee` (`crash`). -/
inductive FeeOutcome where
  | crash
  | returns (e : Option CheckError)
deriving DecidableEq

/-- Model of `Validate1559Params`: fetch the block and its predecessor
(`ctx.Number - 1` over `uint64`, with no guard at height 0), recompute the
base fee from the parent and compare with the block's base fee. -/
def Validate1559Params (c : Client) (ctx : Args) (preCanyon : Bool) : FeeOutcome :=
  match c.infoByNumber ctx.number with
  | .error e => .returns (some e)
  | .ok block =>
    match c.infoByNumber (parentNumber ctx.number) with
    | .error e => .returns (some e)
    | .ok parent =>
      match CalcBaseFee parent ctx.elasticity preCanyon with
      | none => .crash
      | some want =>
        if block.baseFee ≠ want then .returns (some .mismatch) else .returns none

/-- Model of `CheckActivation`: run the check under both variants and `log.Error`
any violated expectation.  The result is the list of emitted error-log
messages; `log.Error` only logs — it neither aborts the run nor changes the
process exit status. -/
def CheckActivation (f : Bool → Option CheckError) (preCanyon : Bool) : List String :=
  if preCanyon then
    (match f true with
     | some _ => ["Pre-state was invalid when it was expected to be valid"]
     | none => []) ++
    (match f false with
     | none => ["Post-state was valid when it was expected to be invalid"]
     | some _ => [])
  else
    (match f true with
     | none => ["Pre-state was valid when it was expected to be invalid"]
     | some _ => []) ++
    (match f false with
     | some _ => ["Post-state was invalid when it was expected to be valid"]
     | none => [])

/-- The tail of `main` after the RPC client has been constructed, for check
functions that return normally: both `CheckActivation` calls run
unconditionally, their logs accumulate, and `main` then falls off the end,
so the process exit status is 0 whatever was logged (`log.Crit`, which
exits non-zero, is only reachable during client setup). -/
def mainChecks (validateR validateF : Bool → Option CheckError) (preCanyon : Bool) :
    List String × Nat :=
  (CheckActivation validateR preCanyon ++ CheckActivation validateF preCanyon, 0)

/-! ## Helper lemmas: byte encodings and the trie model -/

/-- Value of a big-endian byte string. -/
def bytesVal (l : Bytes) : Nat := l.foldl (fun a b => a * 256 + b) 0

theorem bytesVal_snoc (l : Bytes) (b : Nat) :
    bytesVal (l ++ [b]) = bytesVal l * 256 + b := by
  simp [bytesVal, List.foldl_append]

theorem bytesVal_natBytes (n : Nat) : bytesVal (natBytes n) = n := by
  induction n using Nat.strong_induction_on with
  | _ n ih =>
    rw [natBytes_eq]
    split
    · simp [bytesVal]; omega
    · rename_i h
      rw [bytesVal_snoc, ih (n / 256) (Nat.div_lt_self (Nat.pos_of_ne_zero h) (by decide))]
      omega

theorem natBytes_inj {m n : Nat} (h : natBytes m = natBytes n) : m = n := by
  rw [← bytesVal_natBytes m, ← bytesVal_natBytes n, h]

theorem natBytes_ne_nil {n : Nat} (h : n ≠ 0) : natBytes n ≠ [] := by
  rw [natBytes_eq]; simp [h]

theorem rlpAppendUint64_inj {m n : Nat} (h : rlpAppendUint64 m = rlpAppendUint64 n) :
    m = n := by
  unfold rlpAppendUint64 at h
  by_cases h1 : m = 0 <;> by_cases h2 : n = 0
  · omega
  · rw [if_pos h1, if_neg h2] at h
    by_cases h3 : n < 128
    · rw [if_pos h3] at h
      simp only [List.cons.injEq, and_true] at h
      omega
    · rw [if_neg h3] at h
      simp only [List.cons.injEq] at h
      exact absurd h.2.symm (natBytes_ne_nil h2)
  · rw [if_neg h1, if_pos h2] at h
    by_cases h3 : m < 128
    · rw [if_pos h3] at h
      simp only [List.cons.injEq, and_true] at h
      omega
    · rw [if_neg h3] at h
      simp only [List.cons.injEq] at h
      exact absurd h.2 (natBytes_ne_nil h1)
  · rw [if_neg h1, if_neg h2] at h
    by_cases h3 : m < 128 <;> by_cases h4 : n < 128
    · rw [if_pos h3, if_pos h4] at h
      simp only [List.cons.injEq, and_true] at h
      exact h
    · rw [if_pos h3, if_neg h4] at h
      simp only [List.cons.injEq] at h
      exact absurd h.2.symm (natBytes_ne_nil h2)
    · rw [if_neg h3, if_pos h4] at h
      simp only [List.cons.injEq] at h
      exact absurd h.2 (natBytes_ne_nil h1)
    · rw [if_neg h3, if_neg h4] at h
      simp only [List.cons.injEq] at h
      exact natBytes_inj h.2

theorem trieGet_nil (k : Bytes) : trieGet [] k = [] := rfl

theorem find?_filter_ne_self (t : Trie) (k : Bytes) :
    (t.filter (fun p => p.1 ≠ k)).find? (fun p => p.1 = k) = none := by
  induction t with
  | nil => rfl
  | cons p t ih =>
    by_cases hpk : p.1 = k <;> simp [List.filter, hpk, List.find?, ih]

theorem trieGet_update_self (t : Trie) (k v : Bytes) :
    trieGet (trieUpdate t k v) k = v := by
  unfold trieUpdate
  split
  · rename_i hv
    unfold trieGet
    rw [find?_filter_ne_self]
    exact hv.symm
  · unfold trieGet
    rw [List.find?_append, find?_filter_ne_self]
    simp [List.find?]

theorem trieGet_update_other (t : Trie) (k k' v : Bytes) (hk : k' ≠ k) :
    trieGet (trieUpdate t k' v) k = trieGet t k := by
  unfold trieUpdate
  have hfilter : (t.filter (fun p => p.1 ≠ k')).find? (fun p => p.1 = k)
      = t.find? (fun p => p.1 = k) := by
    induction t with
    | nil => rfl
    | cons p t ih =>
      by_cases hpk' : p.1 = k' <;> by_cases hpk : p.1 = k <;>
        simp [List.filter, List.find?, hpk', hpk, ih] <;> simp_all
  split
  · unfold trieGet; rw [hfilter]
  · unfold trieGet
    rw [List.find?_append, hfilter]
    cases hfind : t.find? (fun p => p.1 = k) with
    | some p => rfl
    | none => simp [List.find?, hk]

theorem trieGet_hashListAux_untouched (l : List Bytes) (i : Nat) (t : Trie) (k : Bytes)
    (h : ∀ j, j < l.length → rlpAppendUint64 (i + j) ≠ k) :
    trieGet (hashListAux i t l) k = trieGet t k := by
  induction l generalizing i t with
  | nil => rfl
  | cons v rest ih =>
    rw [hashListAux, ih (i + 1) _ (fun j hj => by
      have h' := h (j + 1) (by simpa using Nat.succ_lt_succ hj)
      have e : i + 1 + j = i + (j + 1) := by omega
      rw [e]; exact h')]
    exact trieGet_update_other _ _ _ _ (by simpa using h 0 (by simp))

theorem trieGet_hashListAux (l : List Bytes) (i j : Nat) (t : Trie)
    (hj : j < l.length) :
    trieGet (hashListAux i t l) (rlpAppendUint64 (i + j)) = l.getD j [] := by
  induction l generalizing i j t with
  | nil => simp at hj
  | cons v rest ih =>
    cases j with
    | zero =>
      rw [hashListAux]
      rw [trieGet_hashListAux_untouched rest (i + 1) _ _ (fun j' hj' hk => by
        have : i + 1 + j' = i + 0 := rlpAppendUint64_inj hk
        omega)]
      simpa using trieGet_update_self t (rlpAppendUint64 (i + 0)) v
    | succ j' =>
      rw [hashListAux]
      have : i + (j' + 1) = (i + 1) + j' := by omega
      rw [this, ih (i + 1) j' _ (by simpa using Nat.lt_of_succ_lt_succ hj)]
      simp

/-- The value `HashList` commits for index `j` is `entries[j]` (an empty
entry is indistinguishable from an absent key, exactly as in the trie). -/
theorem trieGet_HashList (l : List Bytes) (j : Nat) (hj : j < l.length) :
    trieGet (HashList l) (rlpAppendUint64 j) = l.getD j [] := by
  simpa using trieGet_hashListAux l 0 j [] hj

/-! ## Claims C3 and C8: the `HashList` commitment -/

/-- Claim C8: `HashList` applied to the empty sequence of byte strings
inserts nothing and returns the root of a freshly created empty trie — the
canonical empty commitment — and no rule variant enters the computation:
the pre- and post-Canyon encodings of an empty receipt list hash to the
same empty root. -/
theorem c8_hashList_empty_root :
    HashList [] = emptyTrieRoot ∧
    HashList (PreCanyonEncode []).2 = emptyTrieRoot ∧
    HashList (PostCanyonEncode []).2 = emptyTrieRoot :=
  ⟨rfl, rfl, rfl⟩

/-- Claim C3 counterexample: `HashList` does not key entry 0 by the empty
key.  For the singleton list `[[7]]` the commitment holds nothing at the
spec's key for index 0 (the empty byte string) — the entry sits under the
one-byte RLP key `0x80` instead. -/
theorem c3_counterexample :
    trieGet (HashList [[7]]) (specIndexKey 0) ≠ [7] ∧
    trieGet (HashList [[7]]) [128] = [7] ∧
    specIndexKey 0 = [] := by
  refine ⟨?_, ?_, rfl⟩ <;> decide

/-- Claim C3 (amended): entry `i` is stored under the RLP `uint64` encoding
of `i` (index 0 encodes to the byte `0x80`, not the empty key; indices at
and above 128 carry a length prefix), the value committed at that key is
`entries[i]` (an all-empty entry is stored as an absent key, which the trie
reports as the empty value), and swapping two entries whose bytes differ
changes the commitment. -/
theorem c3_amended :
    (∀ (l : List Bytes) (j : Nat), j < l.length →
      trieGet (HashList l) (rlpAppendUint64 j) = l.getD j []) ∧
    (∀ (l : List Bytes) (i j : Nat) (hi : i < l.length) (hj : j < l.length),
      l.get ⟨i, hi⟩ ≠ l.get ⟨j, hj⟩ →
      HashList ((l.set i (l.get ⟨j, hj⟩)).set j (l.get ⟨i, hi⟩)) ≠ HashList l) := by
  constructor
  · exact trieGet_HashList
  · intro l i j hi hj hne heq
    have hij : i ≠ j := by
      intro h
      exact hne (by subst h; rfl)
    have hi' : i < ((l.set i (l.get ⟨j, hj⟩)).set j (l.get ⟨i, hi⟩)).length := by
      simpa using hi
    have h1 := trieGet_HashList _ i hi'
    have h2 := trieGet_HashList l i hi
    rw [heq, h2] at h1
    have hv : ((l.set i (l.get ⟨j, hj⟩)).set j (l.get ⟨i, hi⟩)).getD i [] =
        l.get ⟨j, hj⟩ := by
      rw [List.getD_eq_getElem _ _ hi', List.getElem_set_ne (Ne.symm hij),
        List.getElem_set_self (by simpa using hi)]
    rw [hv, List.getD_eq_getElem _ _ hi] at h1
    apply hne
    simp only [List.get_eq_getElem] at h1 ⊢
    exact h1

/-- Witness for the amended claim C3 at concrete inputs: in `[[5], [6]]`
entry 1 is committed under key `0x01` with value `[6]`, and swapping the
two entries changes the commitment. -/
theorem c3_amended_witness :
    trieGet (HashList [[5], [6]]) (rlpAppendUint64 1) = [[5], [6]].getD 1 [] ∧
    HashList (([[5], [6]].set 0 ([[5], [6]].get ⟨1, by decide⟩)).set 1
      ([[5], [6]].get ⟨0, by decide⟩)) ≠ HashList [[5], [6]] :=
  ⟨c3_amended.1 [[5], [6]] 1 (by decide),
   c3_amended.2 [[5], [6]] 0 1 (by decide) (by decide) (by decide)⟩

/-! ## Helper lemmas: `CalcBaseFee` branch evaluation -/

theorem natCast_ediv (m n : Nat) : ((m : Int)).ediv (n : Int) = ((m / n : Nat) : Int) := rfl

theorem natCast_tdiv (m n : Nat) : ((m : Int)).tdiv (n : Int) = ((m / n : Nat) : Int) := rfl

/-- Decrease branch of `CalcBaseFee` for a non-negative base fee: the
`max(·, 0)` clamp is inert because the delta never exceeds the base fee. -/
theorem CalcBaseFee_decrease (parent : BlockInfo) (e : Nat) (pre : Bool) (b : Nat)
    (hb : parent.baseFee = (b : Int)) (he : ¬ e = 0)
    (hlt : parent.gasUsed < parent.gasLimit / e) :
    CalcBaseFee parent e pre = some ((b : Int) -
      (((parent.gasLimit / e - parent.gasUsed) * b / (parent.gasLimit / e) /
        (if pre then 50 else 250) : Nat) : Int)) := by
  have hne : ¬ parent.gasUsed = parent.gasLimit / e := by omega
  have hngt : ¬ parent.gasLimit / e < parent.gasUsed := by omega
  simp only [CalcBaseFee, if_neg he, if_neg hne, if_neg hngt]
  rw [hb]
  rw [show ((parent.gasLimit / e - parent.gasUsed : Nat) : Int) * (b : Int)
      = (((parent.gasLimit / e - parent.gasUsed) * b : Nat) : Int) by push_cast; ring]
  rw [natCast_ediv, natCast_ediv]
  rw [max_eq_left]
  have hK : (parent.gasLimit / e - parent.gasUsed) * b / (parent.gasLimit / e) /
      (if pre then 50 else 250) ≤ b := by
    have h1 : (parent.gasLimit / e - parent.gasUsed) * b / (parent.gasLimit / e) ≤ b := by
      calc (parent.gasLimit / e - parent.gasUsed) * b / (parent.gasLimit / e)
          ≤ (parent.gasLimit / e) * b / (parent.gasLimit / e) :=
            Nat.div_le_div_right (Nat.mul_le_mul_right _ (by omega))
        _ = b := Nat.mul_div_cancel_left _ (by omega)
    exact le_trans (Nat.div_le_self _ _) h1
  have : (((parent.gasLimit / e - parent.gasUsed) * b / (parent.gasLimit / e) /
      (if pre then 50 else 250) : Nat) : Int) ≤ (b : Int) := by exact_mod_cast hK
  omega

/-- Increase branch of `CalcBaseFee` for a non-negative base fee. -/
theorem CalcBaseFee_increase (parent : BlockInfo) (e : Nat) (pre : Bool) (b : Nat)
    (hb : parent.baseFee = (b : Int)) (he : ¬ e = 0)
    (hgt : parent.gasLimit / e < parent.gasUsed)
    (ht0 : ¬ parent.gasLimit / e = 0) :
    CalcBaseFee parent e pre = some ((b : Int) +
      ((max ((parent.gasUsed - parent.gasLimit / e) * b / (parent.gasLimit / e) /
        (if pre then 50 else 250)) 1 : Nat) : Int)) := by
  have hne : ¬ parent.gasUsed = parent.gasLimit / e := by omega
  simp only [CalcBaseFee, if_neg he, if_neg hne, if_pos hgt, if_neg ht0]
  rw [hb]
  rw [show ((parent.gasUsed - parent.gasLimit / e : Nat) : Int) * (b : Int)
      = (((parent.gasUsed - parent.gasLimit / e) * b : Nat) : Int) by push_cast; ring]
  rw [natCast_ediv, natCast_ediv, Nat.cast_max]
  norm_num

/-- Decrease branch of the spec's wording of the computation. -/
theorem specCalcBaseFee_decrease (parent : BlockInfo) (e : Nat) (pre : Bool) (b : Nat)
    (hb : parent.baseFee = (b : Int))
    (hlt : parent.gasUsed < parent.gasLimit / e) :
    specCalcBaseFee parent e pre = (b : Int) -
      (((parent.gasLimit / e - parent.gasUsed) * b / (parent.gasLimit / e) /
        (if pre then 50 else 250) : Nat) : Int) := by
  have hne : ¬ parent.gasUsed = parent.gasLimit / e := by omega
  have hngt : ¬ parent.gasLimit / e < parent.gasUsed := by omega
  simp only [specCalcBaseFee, if_neg hne, if_neg hngt]
  rw [hb]
  rw [show ((parent.gasLimit / e - parent.gasUsed : Nat) : Int) * (b : Int)
      = (((parent.gasLimit / e - parent.gasUsed) * b : Nat) : Int) by push_cast; ring]
  rw [natCast_tdiv, natCast_tdiv]
  rw [max_eq_right]
  have hK : (parent.gasLimit / e - parent.gasUsed) * b / (parent.gasLimit / e) /
      (if pre then 50 else 250) ≤ b := by
    have h1 : (parent.gasLimit / e - parent.gasUsed) * b / (parent.gasLimit / e) ≤ b := by
      calc (parent.gasLimit / e - parent.gasUsed) * b / (parent.gasLimit / e)
          ≤ (parent.gasLimit / e) * b / (parent.gasLimit / e) :=
            Nat.div_le_div_right (Nat.mul_le_mul_right _ (by omega))
        _ = b := Nat.mul_div_cancel_left _ (by omega)
    exact le_trans (Nat.div_le_self _ _) h1
  have : (((parent.gasLimit / e - parent.gasUsed) * b / (parent.gasLimit / e) /
      (if pre then 50 else 250) : Nat) : Int) ≤ (b : Int) := by exact_mod_cast hK
  omega

/-- Increase branch of the spec's wording of the computation. -/
theorem specCalcBaseFee_increase (parent : BlockInfo) (e : Nat) (pre : Bool) (b : Nat)
    (hb : parent.baseFee = (b : Int))
    (hgt : parent.gasLimit / e < parent.gasUsed) :
    specCalcBaseFee parent e pre = (b : Int) +
      ((max ((parent.gasUsed - parent.gasLimit / e) * b / (parent.gasLimit / e) /
        (if pre then 50 else 250)) 1 : Nat) : Int) := by
  have hne : ¬ parent.gasUsed = parent.gasLimit / e := by omega
  simp only [specCalcBaseFee, if_neg hne, if_pos hgt]
  rw [hb]
  rw [show ((parent.gasUsed - parent.gasLimit / e : Nat) : Int) * (b : Int)
      = (((parent.gasUsed - parent.gasLimit / e) * b : Nat) : Int) by push_cast; ring]
  rw [natCast_tdiv, natCast_tdiv, Nat.cast_max, max_comm]
  norm_num

/-! ## Claims C1, C6 and C9: the fee model -/

/-- Claim C1: for every parent block with a (chain-valid) non-negative base
fee and every elasticity > 0, wherever the claimed formula's divisions are
defined (gas target positive, or gas used exactly at target), `CalcBaseFee`
returns exactly the value the specification describes: `parent.baseFee`
unchanged at the target, `baseFee + max(1, baseFee*(gasUsed-target)/target/denom)`
above it, and `max(0, baseFee - baseFee*(target-gasUsed)/target/denom)` below
it, with truncating integer division applied in that order and
`denom = 50` (Legacy) or `250` (Upgraded). -/
theorem c1_CalcBaseFee_matches_spec (parent : BlockInfo) (elasticity : Nat)
    (preCanyon : Bool) (he : 0 < elasticity) (hb : 0 ≤ parent.baseFee)
    (ht : parent.gasUsed = parent.gasLimit / elasticity ∨
      0 < parent.gasLimit / elasticity) :
    CalcBaseFee parent elasticity preCanyon =
      some (specCalcBaseFee parent elasticity preCanyon) := by
  obtain ⟨b, hbb⟩ : ∃ n : Nat, parent.baseFee = (n : Int) :=
    ⟨parent.baseFee.toNat, (Int.toNat_of_nonneg hb).symm⟩
  have he0 : ¬ elasticity = 0 := by omega
  by_cases heq : parent.gasUsed = parent.gasLimit / elasticity
  · simp [CalcBaseFee, specCalcBaseFee, he0, heq]
  · have ht0 : ¬ parent.gasLimit / elasticity = 0 := by
      rcases ht with h | h
      · exact absurd h heq
      · omega
    by_cases hgt : parent.gasLimit / elasticity < parent.gasUsed
    · rw [CalcBaseFee_increase parent elasticity preCanyon b hbb he0 hgt ht0,
        specCalcBaseFee_increase parent elasticity preCanyon b hbb hgt]
    · have hlt : parent.gasUsed < parent.gasLimit / elasticity := by omega
      rw [CalcBaseFee_decrease parent elasticity preCanyon b hbb he0 hlt,
        specCalcBaseFee_decrease parent elasticity preCanyon b hbb hlt]

/-- Witness for claim C1 at a concrete parent block on the increase path
(gas target 5,000,000, gas used 6,000,000, base fee 1000, Legacy rules). -/
theorem c1_CalcBaseFee_matches_spec_witness :
    CalcBaseFee ⟨30000000, 6000000, 1000, [], []⟩ 6 true =
      some (specCalcBaseFee ⟨30000000, 6000000, 1000, [], []⟩ 6 true) :=
  c1_CalcBaseFee_matches_spec ⟨30000000, 6000000, 1000, [], []⟩ 6 true
    (by decide) (by decide) (Or.inr (by decide))

/-- Claim C9 counterexample: `CalcBaseFee` does have an abort condition
under the stated precondition `elasticity > 0`.  For a parent block with
`gasLimit = 0` and `gasUsed = 1` (elasticity 1) the gas target is 0 and the
increase path divides by zero — in Go, `big.Int.Div` panics (modelled as
`none`), so no value is returned. -/
theorem c9_counterexample :
    CalcBaseFee ⟨0, 1, 0, [], []⟩ 1 true = none ∧
    CalcBaseFee ⟨0, 1, 0, [], []⟩ 1 false = none := by
  exact ⟨rfl, rfl⟩

/-- Claim C9 (amended): whenever `elasticity > 0` and additionally the gas
target `gasLimit / elasticity` is positive (or gas used sits exactly at the
target), `CalcBaseFee` returns a value for every parent block and both
variants — and a zero base fee stays clamped at zero on the decrease
path.  When the target is zero and gas was used, the code divides by zero
and panics. -/
theorem c9_amended (parent : BlockInfo) (elasticity : Nat) (preCanyon : Bool)
    (he : 0 < elasticity)
    (ht : parent.gasUsed = parent.gasLimit / elasticity ∨
      0 < parent.gasLimit / elasticity) :
    (∃ v : Int, CalcBaseFee parent elasticity preCanyon = some v) ∧
    (parent.baseFee = 0 → parent.gasUsed < parent.gasLimit / elasticity →
      CalcBaseFee parent elasticity preCanyon = some 0) := by
  have he0 : ¬ elasticity = 0 := by omega
  constructor
  · by_cases heq : parent.gasUsed = parent.gasLimit / elasticity
    · exact ⟨parent.baseFee, by simp [CalcBaseFee, he0, heq]⟩
    · have ht0 : ¬ parent.gasLimit / elasticity = 0 := by
        rcases ht with h | h
        · exact absurd h heq
        · omega
      by_cases hgt : parent.gasLimit / elasticity < parent.gasUsed
      · cases hcb : CalcBaseFee parent elasticity preCanyon with
        | some v => exact ⟨v, rfl⟩
        | none =>
          simp only [CalcBaseFee, if_neg he0, if_neg heq, if_pos hgt,
            if_neg ht0] at hcb
          exact absurd hcb (Option.some_ne_none _)
      · cases hcb : CalcBaseFee parent elasticity preCanyon with
        | some v => exact ⟨v, rfl⟩
        | none =>
          simp only [CalcBaseFee, if_neg he0, if_neg heq, if_neg hgt] at hcb
          exact absurd hcb (Option.some_ne_none _)
  · intro hb0 hlt
    rw [CalcBaseFee_decrease parent elasticity preCanyon 0 (by rw [hb0]; rfl) he0 hlt]
    simp

/-- Witness for the amended claim C9: at gas target 5,000,000 with gas used
1,000,000 and a zero base fee, a value is returned and the decrease path
stays clamped at zero. -/
theorem c9_amended_witness :
    (∃ v : Int, CalcBaseFee ⟨30000000, 1000000, 0, [], []⟩ 6 true = some v) ∧
    ((⟨30000000, 1000000, 0, [], []⟩ : BlockInfo).baseFee = 0 →
      (⟨30000000, 1000000, 0, [], []⟩ : BlockInfo).gasUsed <
        (⟨30000000, 1000000, 0, [], []⟩ : BlockInfo).gasLimit / 6 →
      CalcBaseFee ⟨30000000, 1000000, 0, [], []⟩ 6 true = some 0) :=
  c9_amended ⟨30000000, 1000000, 0, [], []⟩ 6 true (by decide) (Or.inr (by decide))

/-- Claim C6 counterexample: with `gasLimit = 30,000,000`, `gasUsed =
1,000,000`, `elasticity = 6` and `parent.baseFee = 0`, the computed fee is
`0 = parent.baseFee`, not strictly less than it (the truncating divisions
make the delta zero, and the Legacy and Upgraded decreases are both zero,
so neither is larger). -/
theorem c6_counterexample :
    ¬ (∀ v : Int, CalcBaseFee ⟨30000000, 1000000, 0, [], []⟩ 6 true = some v →
      v < (⟨30000000, 1000000, 0, [], []⟩ : BlockInfo).baseFee) := by
  intro h
  exact absurd (h 0 (by decide)) (by decide)

/-- Claim C6 (amended): for the spec's concrete example (`gasLimit =
30,000,000`, `gasUsed = 1,000,000`, `elasticity = 6`, so target 5,000,000)
and any base fee of at least 313 wei, the computed fee is strictly below
the parent base fee under both variants and the Legacy decrease
(denominator 50) is strictly larger than the Upgraded decrease
(denominator 250): the Legacy result is strictly smaller.  (For smaller
base fees the truncating divisions can send one or both deltas to zero.) -/
theorem c6_amended (b : Nat) (hb : 313 ≤ b) :
    ∃ fLegacy fUpgraded : Int,
      CalcBaseFee ⟨30000000, 1000000, (b : Int), [], []⟩ 6 true = some fLegacy ∧
      CalcBaseFee ⟨30000000, 1000000, (b : Int), [], []⟩ 6 false = some fUpgraded ∧
      fLegacy < (b : Int) ∧ fUpgraded < (b : Int) ∧ fLegacy < fUpgraded := by
  have h1 := CalcBaseFee_decrease ⟨30000000, 1000000, (b : Int), [], []⟩ 6 true b
    rfl (by decide) (show (1000000 : Nat) < 30000000 / 6 by norm_num)
  have h2 := CalcBaseFee_decrease ⟨30000000, 1000000, (b : Int), [], []⟩ 6 false b
    rfl (by decide) (show (1000000 : Nat) < 30000000 / 6 by norm_num)
  norm_num at h1 h2
  refine ⟨_, _, h1, h2, ?_, ?_, ?_⟩ <;> omega

/-- Witness for the amended claim C6 at base fee 1000. -/
theorem c6_amended_witness :
    ∃ fLegacy fUpgraded : Int,
      CalcBaseFee ⟨30000000, 1000000, ((1000 : Nat) : Int), [], []⟩ 6 true =
        some fLegacy ∧
      CalcBaseFee ⟨30000000, 1000000, ((1000 : Nat) : Int), [], []⟩ 6 false =
        some fUpgraded ∧
      fLegacy < ((1000 : Nat) : Int) ∧ fUpgraded < ((1000 : Nat) : Int) ∧
      fLegacy < fUpgraded :=
  c6_amended 1000 (by decide)

/-! ## Helper lemmas: the two receipt encoders -/

theorem clearDepositVersion_nondeposit (r : Receipt) (h : ¬ r.type = DepositTxType) :
    clearDepositVersion r = r := by
  rw [clearDepositVersion, if_neg h]

theorem setDepositVersionOne_nondeposit (r : Receipt) (h : ¬ r.type = DepositTxType) :
    setDepositVersionOne r = r := by
  rw [setDepositVersionOne, if_neg h]

/-- After the pre-Canyon pass, a deposit receipt encodes as the bare
four-field receipt list behind its type byte: no version marker. -/
theorem encodeIndex_clearDepositVersion (r : Receipt) (h : r.type = DepositTxType) :
    encodeIndex (clearDepositVersion r) = r.type :: rlpEncode (receiptRlpData r) := by
  obtain ⟨ty, ps, st, cgu, bl, lg, dn, dv⟩ := r
  dsimp only at h
  subst h
  simp [clearDepositVersion, encodeIndex, DepositTxType, receiptRlpData, statusEncoding]

/-- After the post-Canyon pass, a deposit receipt encodes with the deposit
nonce and an explicit version marker of value 1 as trailing fields. -/
theorem encodeIndex_setDepositVersionOne (r : Receipt) (h : r.type = DepositTxType) :
    encodeIndex (setDepositVersionOne r) =
      r.type :: rlpEncode (depositReceiptRlpData r 1) := by
  obtain ⟨ty, ps, st, cgu, bl, lg, dn, dv⟩ := r
  dsimp only at h
  subst h
  simp [setDepositVersionOne, encodeIndex, DepositTxType, depositReceiptRlpData, statusEncoding]

/-! ## Claims C4 and C5: the receipt encoders -/

/-- Claim C4: each encoder returns exactly one byte string per receipt in
the original order; under the Upgraded (post-Canyon) variant every
deposit-type receipt is encoded with the explicit version marker 1 (the
trailing fields of `depositReceiptRlpData r 1`), under the Legacy
(pre-Canyon) variant the marker is entirely absent (the four-field
`receiptRlpData` form), and receipts of any other type encode to
byte-identical strings under both variants. -/
theorem c4_encode_variants (rs : List Receipt) (i : Nat) (r : Receipt)
    (hr : rs[i]? = some r) :
    (PreCanyonEncode rs).2.length = rs.length ∧
    (PostCanyonEncode rs).2.length = rs.length ∧
    (r.type = DepositTxType →
      (PostCanyonEncode rs).2[i]? =
        some (r.type :: rlpEncode (depositReceiptRlpData r 1)) ∧
      (PreCanyonEncode rs).2[i]? =
        some (r.type :: rlpEncode (receiptRlpData r))) ∧
    (¬ r.type = DepositTxType →
      (PostCanyonEncode rs).2[i]? = some (encodeIndex r) ∧
      (PreCanyonEncode rs).2[i]? = some (encodeIndex r)) := by
  have hpre : (PreCanyonEncode rs).2[i]? = some (encodeIndex (clearDepositVersion r)) := by
    simp [PreCanyonEncode, List.getElem?_map, hr]
  have hpost : (PostCanyonEncode rs).2[i]? =
      some (encodeIndex (setDepositVersionOne r)) := by
    simp [PostCanyonEncode, List.getElem?_map, hr]
  refine ⟨by simp [PreCanyonEncode], by simp [PostCanyonEncode], ?_, ?_⟩
  · intro hdep
    rw [hpre, hpost, encodeIndex_clearDepositVersion r hdep,
      encodeIndex_setDepositVersionOne r hdep]
    exact ⟨rfl, rfl⟩
  · intro hdep
    rw [hpre, hpost, clearDepositVersion_nondeposit r hdep,
      setDepositVersionOne_nondeposit r hdep]
    exact ⟨rfl, rfl⟩

/-- Witness for claim C4: a two-receipt list with a deposit receipt at
index 0; the post-Canyon encoding carries nonce and version marker 1, the
pre-Canyon encoding carries neither. -/
theorem c4_encode_variants_witness :
    (PreCanyonEncode [⟨126, [], 1, 21000, [], [], some 7, some 1⟩,
      ⟨0, [], 1, 100, [], [], none, none⟩]).2.length = 2 ∧
    (PostCanyonEncode [⟨126, [], 1, 21000, [], [], some 7, some 1⟩,
      ⟨0, [], 1, 100, [], [], none, none⟩]).2.length = 2 ∧
    ((⟨126, [], 1, 21000, [], [], some 7, some 1⟩ : Receipt).type = DepositTxType →
      (PostCanyonEncode [⟨126, [], 1, 21000, [], [], some 7, some 1⟩,
        ⟨0, [], 1, 100, [], [], none, none⟩]).2[0]? =
        some ((⟨126, [], 1, 21000, [], [], some 7, some 1⟩ : Receipt).type ::
          rlpEncode (depositReceiptRlpData ⟨126, [], 1, 21000, [], [], some 7, some 1⟩ 1)) ∧
      (PreCanyonEncode [⟨126, [], 1, 21000, [], [], some 7, some 1⟩,
        ⟨0, [], 1, 100, [], [], none, none⟩]).2[0]? =
        some ((⟨126, [], 1, 21000, [], [], some 7, some 1⟩ : Receipt).type ::
          rlpEncode (receiptRlpData ⟨126, [], 1, 21000, [], [], some 7, some 1⟩))) ∧
    (¬ (⟨126, [], 1, 21000, [], [], some 7, some 1⟩ : Receipt).type = DepositTxType →
      (PostCanyonEncode [⟨126, [], 1, 21000, [], [], some 7, some 1⟩,
        ⟨0, [], 1, 100, [], [], none, none⟩]).2[0]? =
        some (encodeIndex ⟨126, [], 1, 21000, [], [], some 7, some 1⟩) ∧
      (PreCanyonEncode [⟨126, [], 1, 21000, [], [], some 7, some 1⟩,
        ⟨0, [], 1, 100, [], [], none, none⟩]).2[0]? =
        some (encodeIndex ⟨126, [], 1, 21000, [], [], some 7, some 1⟩)) :=
  c4_encode_variants [⟨126, [], 1, 21000, [], [], some 7, some 1⟩,
    ⟨0, [], 1, 100, [], [], none, none⟩] 0
    ⟨126, [], 1, 21000, [], [], some 7, some 1⟩ rfl

/-- Claim C5 counterexample: the encoders are not pure in their receipt
argument.  A deposit receipt entering `PreCanyonEncode` with version marker
1 has its marker cleared in place: the caller's receipt differs after the
call. -/
theorem c5_counterexample :
    (PreCanyonEncode [⟨126, [], 1, 21000, [], [], none, some 1⟩]).1 =
      [⟨126, [], 1, 21000, [], [], none, none⟩] ∧
    (PreCanyonEncode [⟨126, [], 1, 21000, [], [], none, some 1⟩]).1 ≠
      [⟨126, [], 1, 21000, [], [], none, some 1⟩] := by decide

/-- Claim C5 (amended): `CalcBaseFee` and `HashList` are pure (they are
functions of their inputs in this model, and the Go code never writes
through them), but `PreCanyonEncode` and `PostCanyonEncode` mutate the
receipts passed to them: after the call, every deposit-type receipt's
version marker is `none` (pre-Canyon) resp. `1` (post-Canyon), while
non-deposit receipts are left unchanged. -/
theorem c5_amended (rs : List Receipt) (i : Nat) (r : Receipt)
    (hr : rs[i]? = some r) :
    ((PreCanyonEncode rs).1[i]? = some (clearDepositVersion r) ∧
     (PostCanyonEncode rs).1[i]? = some (setDepositVersionOne r)) ∧
    (¬ r.type = DepositTxType →
      (PreCanyonEncode rs).1[i]? = some r ∧
      (PostCanyonEncode rs).1[i]? = some r) ∧
    (r.type = DepositTxType →
      (PreCanyonEncode rs).1[i]?.map (fun x => x.depositReceiptVersion) =
        some none ∧
      (PostCanyonEncode rs).1[i]?.map (fun x => x.depositReceiptVersion) =
        some (some 1)) := by
  have hpre : (PreCanyonEncode rs).1[i]? = some (clearDepositVersion r) := by
    simp [PreCanyonEncode, List.getElem?_map, hr]
  have hpost : (PostCanyonEncode rs).1[i]? = some (setDepositVersionOne r) := by
    simp [PostCanyonEncode, List.getElem?_map, hr]
  refine ⟨⟨hpre, hpost⟩, ?_, ?_⟩
  · intro hdep
    rw [hpre, hpost, clearDepositVersion_nondeposit r hdep,
      setDepositVersionOne_nondeposit r hdep]
    exact ⟨rfl, rfl⟩
  · intro hdep
    rw [hpre, hpost]
    obtain ⟨ty, ps, st, cgu, bl, lg, dn, dv⟩ := r
    dsimp only at hdep
    subst hdep
    simp [clearDepositVersion, setDepositVersionOne, DepositTxType]

/-- Witness for the amended claim C5: the deposit receipt from the
counterexample comes back with marker `none` from the pre-Canyon pass and
marker `1` from the post-Canyon pass. -/
theorem c5_amended_witness :
    ((PreCanyonEncode [⟨126, [], 1, 21000, [], [], none, some 1⟩]).1[0]? =
      some (clearDepositVersion ⟨126, [], 1, 21000, [], [], none, some 1⟩) ∧
     (PostCanyonEncode [⟨126, [], 1, 21000, [], [], none, some 1⟩]).1[0]? =
      some (setDepositVersionOne ⟨126, [], 1, 21000, [], [], none, some 1⟩)) ∧
    (¬ (⟨126, [], 1, 21000, [], [], none, some 1⟩ : Receipt).type = DepositTxType →
      (PreCanyonEncode [⟨126, [], 1, 21000, [], [], none, some 1⟩]).1[0]? =
        some ⟨126, [], 1, 21000, [], [], none, some 1⟩ ∧
      (PostCanyonEncode [⟨126, [], 1, 21000, [], [], none, some 1⟩]).1[0]? =
        some ⟨126, [], 1, 21000, [], [], none, some 1⟩) ∧
    ((⟨126, [], 1, 21000, [], [], none, some 1⟩ : Receipt).type = DepositTxType →
      (PreCanyonEncode [⟨126, [], 1, 21000, [], [], none, some 1⟩]).1[0]?.map
        (fun x => x.depositReceiptVersion) = some none ∧
      (PostCanyonEncode [⟨126, [], 1, 21000, [], [], none, some 1⟩]).1[0]?.map
        (fun x => x.depositReceiptVersion) = some (some 1)) :=
  c5_amended [⟨126, [], 1, 21000, [], [], none, some 1⟩] 0
    ⟨126, [], 1, 21000, [], [], none, some 1⟩ rfl

/-! ## Claims C2, C7 and C10: the conformance checker -/

/-- Claim C2 counterexample: a conformance mismatch is not fatal and does
not produce a non-zero exit code.  With check functions that fail under
both variants (assumed pre-Canyon), both `CheckActivation` passes run and
each reports a violated expectation, yet the process exit status is 0. -/
theorem c2_counterexample :
    (mainChecks (fun _ => some CheckError.mismatch)
      (fun _ => some CheckError.mismatch) true).1 =
      ["Pre-state was invalid when it was expected to be valid",
       "Pre-state was invalid when it was expected to be valid"] ∧
    (mainChecks (fun _ => some CheckError.mismatch)
      (fun _ => some CheckError.mismatch) true).2 = 0 :=
  ⟨rfl, rfl⟩

/-- Claim C2 (amended): `CheckActivation` expects the check under the
assumed variant to return nil and under the opposite variant to return an
error, and it emits an error log exactly when one of the two expectations
is violated; the run is not aborted (both checks of `main` always execute)
and the process exits 0 regardless of what was logged. -/
theorem c2_amended (f g : Bool → Option CheckError) (pre : Bool) :
    (CheckActivation f pre = [] ↔ (f pre = none ∧ f (!pre) ≠ none)) ∧
    (mainChecks f g pre).2 = 0 := by
  constructor
  · cases pre <;> cases hft : f true <;> cases hff : f false <;>
      simp [CheckActivation, hft, hff]
  · rfl

/-- Witness for the amended claim C2 at a concrete pair of check functions:
a conforming pre-Canyon state logs nothing, and the exit status is 0. -/
theorem c2_amended_witness :
    (CheckActivation (fun b => if b then none else some CheckError.mismatch) true = [] ↔
      ((fun b => if b then none else some CheckError.mismatch) true = none ∧
       (fun b => if b then none else some CheckError.mismatch) (!true) ≠ none)) ∧
    (mainChecks (fun b => if b then none else some CheckError.mismatch)
      (fun _ => none) true).2 = 0 :=
  c2_amended (fun b => if b then none else some CheckError.mismatch) (fun _ => none) true

/-- Claim C7 counterexample: `CheckActivation` does not treat a
data-source failure as inconclusive.  A network error from the
opposite-variant call is silently accepted as the expected mismatch (no
log — reported as full conformance), and a network error from the
assumed-variant call is reported as a conformance failure. -/
theorem c7_counterexample :
    CheckActivation (fun b => if b then none else some (CheckError.network 7)) true
      = [] ∧
    CheckActivation (fun b => if b then some (CheckError.network 7)
      else some CheckError.mismatch) true =
      ["Pre-state was invalid when it was expected to be valid"] :=
  ⟨rfl, rfl⟩

/-- Claim C7 (amended): `ValidateReceipts` and `Validate1559Params` do
propagate a data-source error immediately, from either fetch, before any
computation or comparison; but `CheckActivation` cannot treat such an
error as inconclusive: it observes only whether an error is present, so
two check functions whose errors agree in presence but differ in kind
(network vs. mismatch) produce identical reports. -/
theorem c7_amended :
    (∀ (c : Client) (ctx : Args) (pre : Bool) (e : CheckError),
      c.infoByNumber ctx.number = .error e → ValidateReceipts c ctx pre = some e) ∧
    (∀ (c : Client) (ctx : Args) (pre : Bool) (e : CheckError) (b : BlockInfo),
      c.infoByNumber ctx.number = .ok b → c.fetchReceipts b.hash = .error e →
      ValidateReceipts c ctx pre = some e) ∧
    (∀ (c : Client) (ctx : Args) (pre : Bool) (e : CheckError),
      c.infoByNumber ctx.number = .error e →
      Validate1559Params c ctx pre = .returns (some e)) ∧
    (∀ (c : Client) (ctx : Args) (pre : Bool) (e : CheckError) (b : BlockInfo),
      c.infoByNumber ctx.number = .ok b →
      c.infoByNumber (parentNumber ctx.number) = .error e →
      Validate1559Params c ctx pre = .returns (some e)) ∧
    (∀ (f g : Bool → Option CheckError) (pre : Bool),
      (∀ x, (f x).isSome = (g x).isSome) →
      CheckActivation f pre = CheckActivation g pre) := by
  refine ⟨?_, ?_, ?_, ?_, ?_⟩
  · intro c ctx pre e h
    simp [ValidateReceipts, h]
  · intro c ctx pre e b h1 h2
    simp [ValidateReceipts, h1, h2]
  · intro c ctx pre e h
    simp [Validate1559Params, h]
  · intro c ctx pre e b h1 h2
    simp [Validate1559Params, h1, h2]
  · intro f g pre hfg
    have h1 := hfg true
    have h2 := hfg false
    cases pre <;> cases hft : f true <;> cases hff : f false <;>
      cases hgt : g true <;> cases hgf : g false <;>
      simp_all [CheckActivation]

/-- Witness for the amended claim C7: a concrete client whose block fetch
fails propagates the network error out of `ValidateReceipts`, and a
network error is indistinguishable from a mismatch in the report. -/
theorem c7_amended_witness :
    ValidateReceipts ⟨fun n => Except.error (CheckError.network n),
      fun _ => Except.error (CheckError.network 99)⟩ ⟨3, 6⟩ true =
      some (CheckError.network 3) ∧
    CheckActivation (fun b => if b then none else some (CheckError.network 7)) true =
      CheckActivation (fun b => if b then none else some CheckError.mismatch) true :=
  ⟨c7_amended.1 ⟨fun n => Except.error (CheckError.network n),
      fun _ => Except.error (CheckError.network 99)⟩ ⟨3, 6⟩ true
      (CheckError.network 3) rfl,
   c7_amended.2.2.2.2 (fun b => if b then none else some (CheckError.network 7))
      (fun b => if b then none else some CheckError.mismatch) true
      (fun x => by cases x <;> rfl)⟩

/-- Claim C10: at height 0 `Validate1559Params` computes the parent height
as `0 - 1` in `uint64` arithmetic and therefore asks the chain data source
for block `2^64 - 1`; there is no height-0 guard, so whatever the source
answers for that astronomical height (here: an error) flows straight back
out. -/
theorem c10_parent_height_wraps :
    parentNumber 0 = 2 ^ 64 - 1 ∧
    (∀ (c : Client) (el : Nat) (pre : Bool) (b : BlockInfo) (e : CheckError),
      c.infoByNumber 0 = .ok b → c.infoByNumber (2 ^ 64 - 1) = .error e →
      Validate1559Params c ⟨0, el⟩ pre = .returns (some e)) := by
  have hp : parentNumber 0 = 2 ^ 64 - 1 := by decide
  refine ⟨hp, ?_⟩
  intro c el pre b e h1 h2
  have h2lit : c.infoByNumber 18446744073709551615 = Except.error e := by
    have hpow : (2 : Nat) ^ 64 - 1 = 18446744073709551615 := by norm_num
    rwa [hpow] at h2
  simp [Validate1559Params, h1, hp, h2lit]

/-- Witness for claim C10: a client that only knows block 0 receives a
request for block 18446744073709551615 and its error comes back out. -/
theorem c10_parent_height_wraps_witness :
    Validate1559Params ⟨fun n => if n = 0 then
        Except.ok ⟨30000000, 15000000, 100, [], []⟩
      else Except.error (CheckError.network n),
      fun _ => Except.error (CheckError.network 0)⟩ ⟨0, 6⟩ true =
      FeeOutcome.returns (some (CheckError.network (2 ^ 64 - 1))) :=
  c10_parent_height_wraps.2 ⟨fun n => if n = 0 then
      Except.ok ⟨30000000, 15000000, 100, [], []⟩
    else Except.error (CheckError.network n),
    fun _ => Except.error (CheckError.network 0)⟩ 6 true
    ⟨30000000, 15000000, 100, [], []⟩ (CheckError.network (2 ^ 64 - 1))
    rfl rfl
